import Mathlib

/-!
Verification of the transaction-instruction interpretation engine:
the token-metadata resolver (`TokenMetadataManager.getTokenMetadata`) and the
instruction classifier (`classifyAndExtractInstructions` and its helpers
`parseTokenTransfer`, `parseNFTTransfer`, `parseSystemInstruction`,
`parseInstructionDetail`, `getInstructionName`, `getProgramInfo`).

Modelling conventions:
- JavaScript numbers that carry amounts are modelled as exact rationals (`ℚ`);
  a decimal string such as "2.5" is read as the rational it denotes.
- Absent (`undefined`) JavaScript fields are modelled as `Option.none`; the
  JavaScript `x || y` fallback (which also treats `""` and `0` as absent)
  is modelled by the `jsOrS` / `jsOrStr` / `jsOrNat` helpers below.
- The metadata cache (`Map` keyed by a string) is modelled as an association
  list with first-match lookup and overwriting insert.
- The account-lookup collaborators (`getMintInfo`, `getMetaplexMetadata`) and
  the base58 decoder are modelled as an explicit environment `Env`; `Date.now`
  is an explicit `now : Nat` argument (milliseconds).
- `getTokenMetadata` additionally returns the number of underlying mint-info
  lookups it performed (0 on a cache hit, 1 otherwise), so that cache claims
  about "underlying lookups" can be stated.
-/

/-- JavaScript `a || b` on possibly-absent strings: `a` unless it is absent or
the empty string (both falsy). -/
def jsOrS (a b : Option String) : Option String :=
  match a with
  | some s => if s = "" then b else some s
  | none => b

/-- JavaScript `a || b` where the fallback is a present string. -/
def jsOrStr (a : Option String) (b : String) : String :=
  match a with
  | some s => if s = "" then b else s
  | none => b

/-- JavaScript `a || b` on possibly-absent numbers: `0` is falsy. -/
def jsOrNat (a : Option Nat) (b : Nat) : Nat :=
  match a with
  | some n => if n = 0 then b else n
  | none => b

/-- JavaScript string interpolation of a possibly-absent string. -/
def jsShow : Option String → String
  | none => "undefined"
  | some s => s

/-- Result of the mandatory numeric lookup (`getMintInfo`): parsed mint data. -/
structure MintInfo where
  decimals : Nat
  supply : String
  isInitialized : Bool
deriving Repr, DecidableEq

/-- Result of the optional descriptive lookup (`getMetaplexMetadata`). -/
structure MetaplexData where
  name : String
  symbol : String
  uri : String
  sellerFeeBasisPoints : Nat
  creators : String
  collection : String
  uses : String
deriving Repr, DecidableEq

/-- The open metadata record built by `getTokenMetadata`; every field that the
code may leave unset is an `Option`. -/
structure TokenMetadata where
  address : Option String
  type_ : Option String
  timestamp : Option Nat
  decimals : Option Nat
  supply : Option String
  isInitialized : Option Bool
  name : Option String
  symbol : Option String
  uri : Option String
  sellerFeeBasisPoints : Option Nat
  creators : Option String
  collection : Option String
  uses : Option String
  isNFT : Option Bool
  error : Option String
deriving Repr, DecidableEq

/-- Record with every field absent. -/
def TokenMetadata.empty : TokenMetadata :=
  ⟨none, none, none, none, none, none, none, none, none, none, none, none,
   none, none, none⟩

/-- External collaborators: the two account lookups used by the metadata
manager, and the base58 decoder used for opaque instruction data. -/
structure Env where
  getMintInfo : Option String → Option MintInfo
  getMetaplexMetadata : Option String → Option MetaplexData
  bs58decode : String → Option String

/-- The metadata cache, an association list keyed by the cache-key string. -/
abbrev Cache := List (String × TokenMetadata)

/-- Lookup in the cache (`Map.get`). -/
def Cache.get (c : Cache) (k : String) : Option TokenMetadata :=
  (c.find? (fun e => e.1 = k)).map (fun e => e.2)

/-- Overwriting insert into the cache (`Map.set`). -/
def Cache.set (c : Cache) (k : String) (v : TokenMetadata) : Cache :=
  (k, v) :: c.filter (fun e => ¬ e.1 = k)

/-- The freshness test `Date.now() - cachedMetadata.timestamp < 3600000`; a
record without a timestamp compares as `NaN` and is never fresh. -/
def cacheFresh (now : Nat) (cached : TokenMetadata) : Bool :=
  match cached.timestamp with
  | some t => decide (now - t < 3600000)
  | none => false

/-- The cache-miss path of `getTokenMetadata` (lines 75-127 of the manager):
mandatory mint-info lookup, optional Metaplex lookup, NFT flag, then the
write-through `metadataCache.set`.  A failed mint-info lookup throws into the
`catch` branch, which returns an error-marked record without caching it. -/
def fetchTokenMetadata (env : Env) (now : Nat) (cache : Cache)
    (mintAddress : Option String) (tokenType : String) (cacheKey : String) :
    TokenMetadata × Cache × Nat :=
  match env.getMintInfo mintAddress with
  | none =>
    ({ TokenMetadata.empty with
        address := mintAddress,
        type_ := some tokenType,
        error := some ("Failed to fetch metadata") }, cache, 1)
  | some mintInfo =>
    let m0 : TokenMetadata :=
      { TokenMetadata.empty with
          address := mintAddress,
          type_ := some tokenType,
          timestamp := some now,
          decimals := some mintInfo.decimals,
          supply := some mintInfo.supply,
          isInitialized := some mintInfo.isInitialized }
    let m1 :=
      if tokenType = "NFT" ∨ tokenType = "SPL" then
        match env.getMetaplexMetadata mintAddress with
        | some mp =>
          { m0 with
              name := some mp.name,
              symbol := some mp.symbol,
              uri := some mp.uri,
              sellerFeeBasisPoints := some mp.sellerFeeBasisPoints,
              creators := some mp.creators,
              collection := some mp.collection,
              uses := some mp.uses }
        | none => m0
      else m0
    let m2 :=
      if tokenType = "NFT" then
        { m1 with isNFT := some (decide (mintInfo.decimals = 0 ∧ mintInfo.supply = "1")) }
      else m1
    (m2, Cache.set cache cacheKey m2, 1)

/-- `TokenMetadataManager.getTokenMetadata`: cache lookup under the key
`mintAddress-tokenType` with a 1-hour TTL, falling back to the fetch path.
Returns the resolved record, the updated cache, and the number of underlying
mint-info lookups performed. -/
def getTokenMetadata (env : Env) (now : Nat) (cache : Cache)
    (mintAddress : Option String) (tokenType : String) :
    TokenMetadata × Cache × Nat :=
  let cacheKey := jsShow mintAddress ++ "-" ++ tokenType
  match Cache.get cache cacheKey with
  | some cached =>
    if cacheFresh now cached then (cached, cache, 0)
    else fetchTokenMetadata env now cache mintAddress tokenType cacheKey
  | none => fetchTokenMetadata env now cache mintAddress tokenType cacheKey

/-- The `tokenAmount` object of a structurally parsed token instruction; the
code reads only its `decimals` and `uiAmount` fields. -/
structure TokenAmount where
  decimals : Nat
  uiAmount : ℚ
deriving Repr, DecidableEq

/-- The named-parameter mapping `instruction.parsed.info`, restricted to the
fields the code reads; every one may be absent. -/
structure ParsedInfo where
  mint : Option String
  token : Option String
  tokenAmount : Option TokenAmount
  amount : Option ℚ
  authority : Option String
  source : Option String
  destination : Option String
  lamports : Option ℚ
  from_ : Option String
  to_ : Option String
deriving Repr, DecidableEq

/-- Parameter mapping with every field absent. -/
def ParsedInfo.empty : ParsedInfo :=
  ⟨none, none, none, none, none, none, none, none, none, none⟩

/-- A structurally parsed instruction: its declared program category
(`instruction.program`), its program id (base58), its decoded type tag and its
parameter mapping. -/
structure ParsedIx where
  program : String
  programId : String
  type_ : String
  info : ParsedInfo
deriving Repr, DecidableEq

/-- A top-level (or inner) instruction: structurally parsed, or an
undecoded instruction carrying only accounts and a base58 payload. -/
inductive Instruction where
  | parsed (ix : ParsedIx)
  | unparsed (programId : String) (accounts : List String) (data : String)
deriving Repr, DecidableEq

/-- One entry of `tx.meta.innerInstructions`: inner instructions associated to
the top-level instruction at `index`. -/
structure InnerInstructionSet where
  index : Nat
  instructions : List Instruction
deriving Repr, DecidableEq

/-- The part of a decoded transaction the classifier reads. -/
structure Transaction where
  instructions : List Instruction
  innerInstructions : Option (List InnerInstructionSet)
deriving Repr, DecidableEq

/-- A normalized transfer record (`TRANSFERS`). -/
structure Transfer where
  tokenType : String
  token : TokenMetadata
  from_ : Option String
  to_ : Option String
  value : Option ℚ
  tokenId : Option String
deriving Repr, DecidableEq

/-- One entry of the known-program registry: id, display name, and the
instruction-label table (including its `default` entry when present). -/
structure ProgramInfo where
  id : String
  name : String
  instructions : List (String × String)
deriving Repr, DecidableEq

/-- Lookup of `table[key]` on a JavaScript object literal. -/
def jsIndex (tbl : List (String × String)) (k : String) : Option String :=
  (tbl.find? (fun e => e.1 = k)).map (fun e => e.2)

/-- The static `KNOWN_PROGRAMS` registry. -/
def KNOWN_PROGRAMS : List ProgramInfo :=
  [⟨"11111111111111111111111111111111", "System Program",
    [("transfer", "Transfer SOL"),
     ("transferWithSeed", "Transfer SOL with Seed"),
     ("allocate", "Allocate Space"),
     ("allocateWithSeed", "Allocate Space with Seed"),
     ("assign", "Assign Account"),
     ("assignWithSeed", "Assign Account with Seed"),
     ("createAccount", "Create Account"),
     ("createAccountWithSeed", "Create Account with Seed"),
     ("advance_nonce_account", "Advance Nonce Account"),
     ("withdraw_nonce_account", "Withdraw from Nonce Account"),
     ("initialize_nonce_account", "Initialize Nonce Account"),
     ("authorize_nonce_account", "Authorize Nonce Account")]⟩,
   ⟨"TokenkegQfeZyiNwAJbNbGKPFXCWuBvf9Ss623VQ5DA", "Token Program",
    [("transfer", "Transfer Tokens"),
     ("transferChecked", "Transfer Tokens (Checked)"),
     ("mintTo", "Mint Tokens"),
     ("mintToChecked", "Mint Tokens (Checked)"),
     ("burn", "Burn Tokens"),
     ("burnChecked", "Burn Tokens (Checked)"),
     ("approve", "Approve Token Delegation"),
     ("revoke", "Revoke Token Delegation"),
     ("setAuthority", "Set Authority"),
     ("closeAccount", "Close Token Account"),
     ("freezeAccount", "Freeze Account"),
     ("thawAccount", "Thaw Account"),
     ("syncNative", "Sync Native"),
     ("initializeMint", "Initialize Mint"),
     ("initializeAccount", "Initialize Token Account")]⟩,
   ⟨"ATokenGPvbdGVxr1b2hvZbsiqW5xWH25efTNsLJA8knL", "Associated Token Program",
    [("create", "Create Associated Token Account"),
     ("createIdempotent", "Create Associated Token Account (Idempotent)"),
     ("recover", "Recover Nested Token Account")]⟩,
   ⟨"metaqbxxUerdq28cj1RbAWkYQm3ybzjb6a8bt518x1s", "Token Metadata Program",
    [("createMetadataAccount", "Create Metadata Account"),
     ("updateMetadataAccount", "Update Metadata Account"),
     ("createMasterEdition", "Create Master Edition"),
     ("verifyCollection", "Verify Collection"),
     ("setAndVerifyCollection", "Set and Verify Collection"),
     ("unverifyCollection", "Unverify Collection"),
     ("burnNft", "Burn NFT"),
     ("verifyCreator", "Verify Creator"),
     ("unverifyCreator", "Unverify Creator")]⟩,
   ⟨"JUP4Fb2cqiRUcaTHdrPC8h2gNsA2ETXiPDD33WcGuJB", "Jupiter Aggregator v6",
    [("default", "Swap Tokens")]⟩,
   ⟨"675kPX9MHTjS2zt1qfr1NYHuzeLXfQM9H24wFSUt1Mp8", "Raydium Liquidity Pool V4",
    [("default", "Swap Tokens")]⟩,
   ⟨"whirLbMiicVdio4qvUfM5KAg6Ct8VwpYzGff3uctyCc", "Orca Whirlpool",
    [("default", "Swap Tokens")]⟩,
   ⟨"Stake11111111111111111111111111111111111111", "Stake Program",
    [("initialize", "Initialize Stake Account"),
     ("delegate", "Delegate Stake"),
     ("withdraw", "Withdraw Stake"),
     ("deactivate", "Deactivate Stake"),
     ("split", "Split Stake"),
     ("merge", "Merge Stake"),
     ("authorizeWithSeed", "Authorize with Seed")]⟩,
   ⟨"MarBmsSgKXdrN1egZf5sqe1TMai9K1rChYNDJgjq7aD", "Marinade.Finance",
    [("default", "Stake SOL")]⟩,
   ⟨"9xQeWvG816bUx9EPjHmaT23yvVM2ZWbrrpZb9PusVFin", "Serum DEX v3",
    [("default", "DEX Operation")]⟩,
   ⟨"ComputeBudget111111111111111111111111111111", "Compute Budget Program",
    [("default", "Set Compute Unit Limit")]⟩,
   ⟨"M2mx93ekt1fmXSVkTrUL9xVFHkmME8HTUi5Cyc5aF7K", "Magic Eden v2",
    [("default", "Magic Eden Operation")]⟩,
   ⟨"auth9SigNpDKz4sJJ1DfCTuZrZNSAgh9sFD3rboVmgg", "Token Auth Rules",
    [("default", "Token Authorization Rules")]⟩,
   ⟨"MemoSq4gqABAXKb96qnH8TysNcWxMyWCqXgDLGmfcHr", "Memo Program",
    [("default", "Add Memo")]⟩]

/-- `getProgramInfo`: registry lookup by base58 id, synthesizing an unknown
descriptor when absent. -/
def getProgramInfo (programId : String) : ProgramInfo :=
  (KNOWN_PROGRAMS.find? (fun p => p.id = programId)).getD
    ⟨programId, "Unknown Program (" ++ programId ++ ")",
     [("default", "Unknown Instruction")]⟩

/-- `getInstructionName`: `program.instructions[type] || type || "Unknown Instruction"`. -/
def getInstructionName (program : ProgramInfo) (type_ : String) : String :=
  jsOrStr (jsIndex program.instructions type_)
    (jsOrStr (some type_) ("Unknown Instruction"))

/-- `decodeInstructionData`: best-effort base58-to-text decode with raw
passthrough on failure. -/
def decodeInstructionData (env : Env) (data : String) : String :=
  (env.bs58decode data).getD data

/-- The open `params` mapping of a normalized instruction detail. -/
inductive ParamsV where
  | info (i : ParsedInfo)
  | rawData (data : String) (accounts : List String)
deriving Repr, DecidableEq

/-- A normalized instruction detail record with its nested children. -/
inductive InstructionDetail where
  | mk (programName : String) (instructionName : String) (params : ParamsV)
      (innerInstructions : List InstructionDetail)

/-- Display name of the program of a detail record. -/
def InstructionDetail.programName : InstructionDetail → String
  | .mk p _ _ _ => p

/-- Resolved instruction label of a detail record. -/
def InstructionDetail.instructionName : InstructionDetail → String
  | .mk _ n _ _ => n

/-- Parameter mapping of a detail record. -/
def InstructionDetail.params : InstructionDetail → ParamsV
  | .mk _ _ p _ => p

/-- Children of a detail record. -/
def InstructionDetail.innerInstructions : InstructionDetail → List InstructionDetail
  | .mk _ _ _ i => i

/-- `parseInstructionDetail`: normalize one instruction, attaching the given
normalized inner instructions. -/
def parseInstructionDetail (env : Env) (instruction : Instruction)
    (innerInstructions : List InstructionDetail) : InstructionDetail :=
  match instruction with
  | .parsed ix =>
    let programInfo := getProgramInfo ix.programId
    let instructionName := ix.type_
    .mk programInfo.name
      (jsOrStr (jsIndex programInfo.instructions instructionName) instructionName)
      (.info ix.info) innerInstructions
  | .unparsed programId accounts data =>
    let programInfo := getProgramInfo programId
    let decodedData := decodeInstructionData env data
    let instructionName :=
      jsOrStr (jsIndex programInfo.instructions ("default")) ("Unknown Instruction")
    .mk programInfo.name
      (jsOrStr (jsIndex programInfo.instructions instructionName) instructionName)
      (.rawData decodedData accounts) innerInstructions

/-- `parseTokenTransfer`: on a `transfer`/`transferChecked` token instruction,
resolve fungible metadata for `mint || token` and build an SPL transfer whose
value is the display amount when a `tokenAmount` object is present, else the
raw `amount` scaled by `10 ^ (tokenMetadata.decimals || 9)` (a falsy `0` or an
absent `decimals` both fall back to 9).  Returns the transfer (if any) and the
cache left by the metadata resolution. -/
def parseTokenTransfer (env : Env) (now : Nat) (cache : Cache) (ix : ParsedIx) :
    Option Transfer × Cache :=
  if ix.type_ = "transferChecked" ∨ ix.type_ = "transfer" then
    let mintAddress := jsOrS ix.info.mint ix.info.token
    let fetched := getTokenMetadata env now cache mintAddress ("SPL")
    let tokenMetadata := fetched.1
    let value : ℚ :=
      match ix.info.tokenAmount with
      | some ta => ta.uiAmount
      | none =>
        match ix.info.amount with
        | some a =>
          if a = 0 then 0
          else a / (10 : ℚ) ^ jsOrNat tokenMetadata.decimals 9
        | none => 0
    (some { tokenType := "SPL", token := tokenMetadata,
            from_ := jsOrS ix.info.authority ix.info.source,
            to_ := ix.info.destination,
            value := some value, tokenId := none },
     fetched.2.1)
  else (none, cache)

/-- `parseNFTTransfer`: on a `transfer`/`transferChecked` token instruction
whose `tokenAmount` object has `decimals === 0` and `uiAmount === 1`, resolve
metadata for the mint with kind NFT and build an NFT transfer whose `tokenId`
is the mint address. -/
def parseNFTTransfer (env : Env) (now : Nat) (cache : Cache) (ix : ParsedIx) :
    Option Transfer × Cache :=
  if ix.type_ = "transferChecked" ∨ ix.type_ = "transfer" then
    match ix.info.tokenAmount with
    | some ta =>
      if ta.decimals = 0 ∧ ta.uiAmount = 1 then
        let fetched := getTokenMetadata env now cache ix.info.mint ("NFT")
        (some { tokenType := "NFT", token := fetched.1,
                from_ := jsOrS ix.info.authority ix.info.source,
                to_ := ix.info.destination,
                value := none, tokenId := ix.info.mint },
         fetched.2.1)
      else (none, cache)
    | none => (none, cache)
  else (none, cache)

/-- `parseSystemInstruction`: on a `transfer`/`transferWithSeed` system
instruction, build a native transfer with the fixed 9-decimal SOL descriptor
and `value = lamports / 1e9`. -/
def parseSystemInstruction (ix : ParsedIx) : Option Transfer :=
  if ix.type_ = "transfer" ∨ ix.type_ = "transferWithSeed" then
    some { tokenType := "Native",
           token := { TokenMetadata.empty with
                        symbol := some ("SOL"), decimals := some 9 },
           from_ := jsOrS ix.info.source ix.info.from_,
           to_ := jsOrS ix.info.destination ix.info.to_,
           value := ix.info.lamports.map (fun l => l / (1000000000 : ℚ)),
           tokenId := none }
  else none

/-- The aggregated classification result (`ExtractedData`). -/
structure ExtractedData where
  programInteractions : List String
  actions : List InstructionDetail
  otherInstructions : List InstructionDetail
  types : List String
  transfers : List Transfer

/-- Empty result, as initialized by `classifyAndExtractInstructions`. -/
def ExtractedData.empty : ExtractedData := ⟨[], [], [], [], []⟩

/-- Base58 program id of an instruction (at runtime `programId` is always a
`PublicKey`, rendered with `toBase58`). -/
def instrProgramId : Instruction → String
  | .parsed ix => ix.programId
  | .unparsed programId _ _ => programId

/-- First-seen tracking of `result.programInteractions`. -/
def trackProgram (res : ExtractedData) (programId : String) : ExtractedData :=
  if programId ∈ res.programInteractions then res
  else { res with programInteractions := res.programInteractions ++ [programId] }

/-- The `switch (instruction.program)` special casing of a structurally parsed
instruction: system transfers, then the independent fungible and NFT token
transfer extractions (the NFT resolution sees the cache left by the fungible
one). -/
def processSpecial (env : Env) (now : Nat) (res : ExtractedData) (cache : Cache)
    (ix : ParsedIx) : ExtractedData × Cache :=
  if ix.program = "system" then
    match parseSystemInstruction ix with
    | some t =>
      ({ res with transfers := res.transfers ++ [t],
                  types := res.types ++ ["Native Transfer"] }, cache)
    | none => (res, cache)
  else if ix.program = "spl-token" then
    let fetchedT := parseTokenTransfer env now cache ix
    let res1 :=
      match fetchedT.1 with
      | some t =>
        { res with transfers := res.transfers ++ [t],
                   types := res.types ++ ["Token Transfer"] }
      | none => res
    let fetchedN := parseNFTTransfer env now fetchedT.2 ix
    let res2 :=
      match fetchedN.1 with
      | some t =>
        { res1 with transfers := res1.transfers ++ [t],
                    types := res1.types ++ ["NFT Transfer"] }
      | none => res1
    (res2, fetchedN.2)
  else (res, cache)

/-- One iteration of the instruction loop of `classifyAndExtractInstructions`:
track the program interaction, normalize the instruction (with the inner
instructions associated to index `idx`), run the special transfer cases, and
append to exactly one of `actions` / `otherInstructions`. -/
def processInstruction (env : Env) (now : Nat) (tx : Transaction)
    (s : ExtractedData × Cache) (idx : Nat) (instruction : Instruction) :
    ExtractedData × Cache :=
  let programId := instrProgramId instruction
  let res0 := trackProgram s.1 programId
  let innerDetails :=
    ((((tx.innerInstructions.getD []).filter (fun g => g.index = idx)).map
        (fun g => g.instructions)).flatten).map
      (fun innerIx => parseInstructionDetail env innerIx [])
  let instructionDetail := parseInstructionDetail env instruction innerDetails
  match instruction with
  | .parsed ix =>
    let stepped := processSpecial env now res0 s.2 ix
    ({ stepped.1 with
        types := stepped.1.types ++ [instructionDetail.instructionName],
        actions := stepped.1.actions ++ [instructionDetail] }, stepped.2)
  | .unparsed _ _ _ =>
    ({ res0 with
        types := res0.types ++ [(getProgramInfo programId).name],
        otherInstructions := res0.otherInstructions ++ [instructionDetail] }, s.2)

/-- The indexed instruction loop (`for (let idx = 0; ...)`). -/
def processList (env : Env) (now : Nat) (tx : Transaction) :
    Nat → List Instruction → ExtractedData × Cache → ExtractedData × Cache
  | _, [], s => s
  | idx, i :: rest, s =>
    processList env now tx (idx + 1) rest (processInstruction env now tx s idx i)

/-- `classifyAndExtractInstructions`: iterate all top-level instructions from
an empty result, threading the metadata cache. -/
def classifyAndExtractInstructions (env : Env) (now : Nat) (cache : Cache)
    (tx : Transaction) : ExtractedData × Cache :=
  processList env now tx 0 tx.instructions (ExtractedData.empty, cache)

/-- Whether an instruction is structurally parsed. -/
def isParsedIx : Instruction → Bool
  | .parsed _ => true
  | .unparsed _ _ _ => false

/-- First-occurrence deduplication of a list of ids: keep each id at its first
occurrence, in order. -/
def firstOccur : List String → List String
  | [] => []
  | a :: l => a :: (firstOccur l).filter (fun x => ¬ x = a)

/-- Accumulator form of first-occurrence tracking, as the loop performs it. -/
def firstAcc : List String → List String → List String
  | acc, [] => acc
  | acc, x :: xs => firstAcc (if x ∈ acc then acc else acc ++ [x]) xs

/-- Modelled from the spec (section 4.1): the claimed label resolution order
for refinement comparison — exact tag match, else the descriptor's default
label, else the raw tag verbatim, else "Unknown Instruction". -/
def specLabelOrder (p : ProgramInfo) (rawTag : String) : String :=
  jsOrStr (jsIndex p.instructions rawTag)
    (jsOrStr (jsIndex p.instructions ("default"))
      (jsOrStr (some rawTag) ("Unknown Instruction")))

/-- Label the code actually computes for a structurally parsed instruction:
exact tag match, else the raw tag verbatim; the default label is never
consulted. -/
def codeLabelParsed (p : ProgramInfo) (rawTag : String) : String :=
  jsOrStr (jsIndex p.instructions rawTag) rawTag

/-- Label the code actually computes for an undecoded instruction: the
descriptor's default label (else "Unknown Instruction"), itself looked up
once more in the label table. -/
def codeLabelUnparsed (p : ProgramInfo) : String :=
  let n := jsOrStr (jsIndex p.instructions ("default")) ("Unknown Instruction")
  jsOrStr (jsIndex p.instructions n) n

/-- Environment in which every external lookup fails. -/
def envNone : Env :=
  { getMintInfo := fun _ => none,
    getMetaplexMetadata := fun _ => none,
    bs58decode := fun _ => none }

/-- Environment in which every mint resolves with 2 decimals. -/
def envD2 : Env :=
  { getMintInfo := fun _ => some { decimals := 2, supply := "100", isInitialized := true },
    getMetaplexMetadata := fun _ => none,
    bs58decode := fun _ => none }

/-- Environment in which every mint resolves with 0 decimals. -/
def envD0 : Env :=
  { getMintInfo := fun _ => some { decimals := 0, supply := "100", isInitialized := true },
    getMetaplexMetadata := fun _ => none,
    bs58decode := fun _ => none }

/-- Fixture: a token transfer carrying only a raw amount of 250. -/
def ix250 : ParsedIx :=
  { program := "spl-token", programId := "TokenkegQfeZyiNwAJbNbGKPFXCWuBvf9Ss623VQ5DA",
    type_ := "transfer",
    info := { ParsedInfo.empty with
                mint := some ("M"),
                amount := some 250,
                source := some ("S"),
                destination := some ("D") } }

/-- Fixture: a token transfer whose `tokenAmount` has 0 decimals and display
amount 1 (the NFT heuristic shape). -/
def ixNFT : ParsedIx :=
  { program := "spl-token", programId := "TokenkegQfeZyiNwAJbNbGKPFXCWuBvf9Ss623VQ5DA",
    type_ := "transferChecked",
    info := { ParsedInfo.empty with
                mint := some ("M"),
                tokenAmount := some { decimals := 0, uiAmount := 1 },
                source := some ("S"),
                destination := some ("D") } }

/-- Fixture: a native transfer of 1,500,000,000 lamports. -/
def ixSys : ParsedIx :=
  { program := "system", programId := "11111111111111111111111111111111",
    type_ := "transfer",
    info := { ParsedInfo.empty with
                lamports := some 1500000000,
                source := some ("S"),
                destination := some ("D") } }

/-- Fixture: a structurally parsed instruction of the Jupiter program with a
tag that is not in its label table. -/
def ixJupiter : ParsedIx :=
  { program := "jupiter", programId := "JUP4Fb2cqiRUcaTHdrPC8h2gNsA2ETXiPDD33WcGuJB",
    type_ := "route", info := ParsedInfo.empty }

/-- Fixture: four undecoded instructions invoking programs A, B, A, C. -/
def txABAC : Transaction :=
  { instructions :=
      [Instruction.unparsed ("A") [] (""), Instruction.unparsed ("B") [] (""),
       Instruction.unparsed ("A") [] (""), Instruction.unparsed ("C") [] ("")],
    innerInstructions := none }

/-- C8: for every structurally-parsed system instruction with tag `transfer`
or `transferWithSeed`, the extracted Native transfer uses the fixed 9-decimal
SOL descriptor and its value is the raw lamport amount divided by `10 ^ 9`. -/
theorem parseSystemInstruction_native_value :
    ∀ ix : ParsedIx,
      ix.type_ = "transfer" ∨ ix.type_ = "transferWithSeed" →
      ∃ t, parseSystemInstruction ix = some t
        ∧ t.tokenType = "Native"
        ∧ t.token.symbol = some ("SOL")
        ∧ t.token.decimals = some 9
        ∧ (∀ l : ℚ, ix.info.lamports = some l → t.value = some (l / (10 : ℚ) ^ (9 : ℕ)))
        ∧ t.from_ = jsOrS ix.info.source ix.info.from_
        ∧ t.to_ = jsOrS ix.info.destination ix.info.to_ := by
  intro ix h
  unfold parseSystemInstruction
  rw [if_pos h]
  refine ⟨_, rfl, rfl, rfl, rfl, ?_, rfl, rfl⟩
  intro l hl
  simp only [hl, Option.map_some]
  norm_num

/-- Witness for C8: 1,500,000,000 raw lamports produce value 1.5. -/
theorem parseSystemInstruction_native_value_witness :
    ∃ t, parseSystemInstruction ixSys = some t ∧ t.value = some ((3 : ℚ) / 2) := by
  obtain ⟨t, ht, _, _, _, hv, _, _⟩ :=
    parseSystemInstruction_native_value ixSys (Or.inl rfl)
  refine ⟨t, ht, ?_⟩
  rw [hv 1500000000 rfl]
  norm_num

/-- C10: `parseNFTTransfer` yields a transfer only when the instruction
carries a `tokenAmount` object with `decimals = 0` and `uiAmount = 1`; an
instruction without a `tokenAmount` object never yields an NFT transfer,
whatever the environment resolves for the mint. -/
theorem parseNFTTransfer_requires_tokenAmount :
    ∀ (env : Env) (now : Nat) (cache : Cache) (ix : ParsedIx),
      (¬ (parseNFTTransfer env now cache ix).1 = none →
        ∃ ta, ix.info.tokenAmount = some ta ∧ ta.decimals = 0 ∧ ta.uiAmount = 1
          ∧ (ix.type_ = "transferChecked" ∨ ix.type_ = "transfer"))
    ∧ (ix.info.tokenAmount = none →
        parseNFTTransfer env now cache ix = (none, cache)) := by
  intro env now cache ix
  unfold parseNFTTransfer
  constructor
  · intro hne
    split at hne
    · rename_i hty
      split at hne
      · rename_i ta hta
        split at hne
        · rename_i hcond
          exact ⟨ta, hta, hcond.1, hcond.2, hty⟩
        · exact absurd rfl hne
      · exact absurd rfl hne
    · exact absurd rfl hne
  · intro hta
    split
    · rw [hta]
    · rfl

/-- Witness for C10: a raw-amount-only transfer yields no NFT transfer even
when the mint resolves with 0 decimals. -/
theorem parseNFTTransfer_requires_tokenAmount_witness :
    parseNFTTransfer envD0 0 [] ix250 = (none, []) :=
  (parseNFTTransfer_requires_tokenAmount envD0 0 [] ix250).2 rfl

/-- C9: when a token transfer carries only a raw amount and the metadata
resolves with `decimals = 0`, the falsy-zero fallback `decimals || 9` scales
by `10 ^ 9` instead of `10 ^ 0`. -/
theorem parseTokenTransfer_zero_decimals_coerced :
    ∀ (env : Env) (now : Nat) (cache : Cache) (ix : ParsedIx) (a : ℚ),
      ix.type_ = "transferChecked" ∨ ix.type_ = "transfer" →
      ix.info.tokenAmount = none →
      ix.info.amount = some a →
      ¬ a = 0 →
      (getTokenMetadata env now cache (jsOrS ix.info.mint ix.info.token) ("SPL")).1.decimals
        = some 0 →
      ∃ t, (parseTokenTransfer env now cache ix).1 = some t
        ∧ t.value = some (a / (10 : ℚ) ^ (9 : ℕ)) := by
  intro env now cache ix a hty hta ha ha0 hdec
  unfold parseTokenTransfer
  rw [if_pos hty]
  refine ⟨_, rfl, ?_⟩
  simp only [hta, ha, if_neg ha0, hdec, jsOrNat]
  norm_num

/-- Witness for C9: raw amount 250 with resolved decimals 0 yields
`250 / 10 ^ 9`. -/
theorem parseTokenTransfer_zero_decimals_coerced_witness :
    ∃ t, (parseTokenTransfer envD0 0 [] ix250).1 = some t
      ∧ t.value = some ((250 : ℚ) / (10 : ℚ) ^ (9 : ℕ)) := by
  exact parseTokenTransfer_zero_decimals_coerced envD0 0 [] ix250 250
    (Or.inr rfl) rfl rfl (by norm_num) (by decide)

/-- C3 counterexample: a raw-amount-only transfer of 250 whose metadata
resolves with decimals 0 refutes the claimed `rawAmount / 10^decimals` with
decimals taken from resolved metadata: the claimed value is `250 / 10^0 =
250`, but the falsy-zero fallback `decimals || 9` makes the code produce
`250 / 10^9`. -/
theorem parseTokenTransfer_resolved_zero_decimals_not_raw :
    (getTokenMetadata envD0 0 [] (jsOrS ix250.info.mint ix250.info.token) ("SPL")).1.decimals
      = some 0
  ∧ ((parseTokenTransfer envD0 0 [] ix250).1.map (fun t => t.value))
      = some (some ((250 : ℚ) / (10 : ℚ) ^ (9 : ℕ)))
  ∧ ¬ ((parseTokenTransfer envD0 0 [] ix250).1.map (fun t => t.value))
      = some (some ((250 : ℚ) / (10 : ℚ) ^ (0 : ℕ))) := by
  have hdec : (getTokenMetadata envD0 0 []
      (jsOrS ix250.info.mint ix250.info.token) ("SPL")).1.decimals = some 0 := by
    decide
  have hval : ((parseTokenTransfer envD0 0 [] ix250).1.map (fun t => t.value))
      = some (some ((250 : ℚ) / (10 : ℚ) ^ (9 : ℕ))) := by
    unfold parseTokenTransfer
    rw [if_pos (show ix250.type_ = "transferChecked" ∨ ix250.type_ = "transfer"
        from Or.inr rfl)]
    simp only [show ix250.info.tokenAmount = none from rfl,
      show ix250.info.amount = some ((250 : ℚ)) from rfl,
      if_neg (by norm_num : ¬ (250 : ℚ) = 0), hdec, jsOrNat]
    norm_num
  refine ⟨hdec, hval, ?_⟩
  rw [hval]
  simp only [Option.some.injEq]
  norm_num

/-- C3 amended: the SPL transfer value follows the precedence display amount
first, else raw amount scaled by `10 ^ decimals`, where `decimals` is the
resolved metadata decimals when nonzero and 9 both when the metadata is
unresolved and when the resolved decimals are 0 (the falsy-zero fallback). -/
theorem parseTokenTransfer_value_precedence_amended :
    ∀ (env : Env) (now : Nat) (cache : Cache) (ix : ParsedIx),
      ix.type_ = "transferChecked" ∨ ix.type_ = "transfer" →
      ∃ t, (parseTokenTransfer env now cache ix).1 = some t
        ∧ t.token = (getTokenMetadata env now cache (jsOrS ix.info.mint ix.info.token) ("SPL")).1
        ∧ (∀ ta, ix.info.tokenAmount = some ta → t.value = some ta.uiAmount)
        ∧ (∀ (a : ℚ) (d : ℕ), ix.info.tokenAmount = none → ix.info.amount = some a →
            ¬ a = 0 →
            (getTokenMetadata env now cache (jsOrS ix.info.mint ix.info.token) ("SPL")).1.decimals
              = some d → ¬ d = 0 →
            t.value = some (a / (10 : ℚ) ^ d))
        ∧ (∀ a : ℚ, ix.info.tokenAmount = none → ix.info.amount = some a → ¬ a = 0 →
            (getTokenMetadata env now cache (jsOrS ix.info.mint ix.info.token) ("SPL")).1.decimals
              = none →
            t.value = some (a / (10 : ℚ) ^ (9 : ℕ)))
        ∧ (∀ a : ℚ, ix.info.tokenAmount = none → ix.info.amount = some a → ¬ a = 0 →
            (getTokenMetadata env now cache (jsOrS ix.info.mint ix.info.token) ("SPL")).1.decimals
              = some 0 →
            t.value = some (a / (10 : ℚ) ^ (9 : ℕ))) := by
  intro env now cache ix hty
  unfold parseTokenTransfer
  rw [if_pos hty]
  refine ⟨_, rfl, rfl, ?_, ?_, ?_, ?_⟩
  · intro ta hta
    simp only [hta]
  · intro a d hta ha ha0 hdec hd0
    simp only [hta, ha, if_neg ha0, hdec, jsOrNat, if_neg hd0]
  · intro a hta ha ha0 hdec
    simp only [hta, ha, if_neg ha0, hdec, jsOrNat]
  · intro a hta ha ha0 hdec
    simp only [hta, ha, if_neg ha0, hdec, jsOrNat]
    norm_num

/-- Witness for C3 amended: raw amount 250 with resolved decimals 2 yields
2.5, with unresolved metadata yields 0.00000025, and with resolved decimals 0
also yields 0.00000025. -/
theorem parseTokenTransfer_value_precedence_amended_witness :
    (∃ t, (parseTokenTransfer envD2 0 [] ix250).1 = some t
       ∧ t.value = some ((5 : ℚ) / 2))
  ∧ (∃ t, (parseTokenTransfer envNone 0 [] ix250).1 = some t
       ∧ t.value = some ((25 : ℚ) / 100000000))
  ∧ (∃ t, (parseTokenTransfer envD0 0 [] ix250).1 = some t
       ∧ t.value = some ((25 : ℚ) / 100000000)) := by
  refine ⟨?_, ?_, ?_⟩
  · obtain ⟨t, ht, _, _, hres, _, _⟩ :=
      parseTokenTransfer_value_precedence_amended envD2 0 [] ix250 (Or.inr rfl)
    refine ⟨t, ht, ?_⟩
    rw [hres 250 2 rfl rfl (by norm_num) (by decide) (by decide)]
    norm_num
  · obtain ⟨t, ht, _, _, _, hunres, _⟩ :=
      parseTokenTransfer_value_precedence_amended envNone 0 [] ix250 (Or.inr rfl)
    refine ⟨t, ht, ?_⟩
    rw [hunres 250 rfl rfl (by norm_num) (by decide)]
    norm_num
  · obtain ⟨t, ht, _, _, _, _, hzero⟩ :=
      parseTokenTransfer_value_precedence_amended envD0 0 [] ix250 (Or.inr rfl)
    refine ⟨t, ht, ?_⟩
    rw [hzero 250 rfl rfl (by norm_num) (by decide)]
    norm_num

/-- C7 counterexample: for a parsed Jupiter instruction with the unknown tag
`route`, the claimed resolution order gives the default label `Swap Tokens`,
but both the displayed label and `getInstructionName` give the raw tag
`route`, skipping the default. -/
theorem instruction_label_default_skipped :
    specLabelOrder (getProgramInfo ("JUP4Fb2cqiRUcaTHdrPC8h2gNsA2ETXiPDD33WcGuJB")) ("route")
      = "Swap Tokens"
  ∧ (parseInstructionDetail envNone (Instruction.parsed ixJupiter) []).instructionName
      = "route"
  ∧ getInstructionName (getProgramInfo ("JUP4Fb2cqiRUcaTHdrPC8h2gNsA2ETXiPDD33WcGuJB")) ("route")
      = "route"
  ∧ ¬ ("route" = "Swap Tokens") := by
  refine ⟨?_, ?_, ?_, by decide⟩ <;> decide

/-- C7 amended: the displayed label of a parsed instruction is the exact tag
match, else the raw tag verbatim (the descriptor's default label is never
consulted); only an undecoded instruction uses the default label, else
`Unknown Instruction`, re-looked-up once in the table. -/
theorem instruction_label_order_amended :
    (∀ (env : Env) (ix : ParsedIx) (inner : List InstructionDetail),
      (parseInstructionDetail env (Instruction.parsed ix) inner).instructionName
        = codeLabelParsed (getProgramInfo ix.programId) ix.type_)
  ∧ (∀ (env : Env) (pid : String) (accs : List String) (dat : String)
        (inner : List InstructionDetail),
      (parseInstructionDetail env (Instruction.unparsed pid accs dat) inner).instructionName
        = codeLabelUnparsed (getProgramInfo pid)) := by
  constructor
  · intro env ix inner
    rfl
  · intro env pid accs dat inner
    rfl

/-- Reading the cache right after an insert returns the inserted record. -/
theorem Cache.get_set (c : Cache) (k : String) (v : TokenMetadata) :
    Cache.get (Cache.set c k v) k = some v := by
  simp [Cache.get, Cache.set, List.find?]

/-- The fetch path always performs exactly one mint-info lookup. -/
theorem fetchTokenMetadata_lookups (env : Env) (now : Nat) (cache : Cache)
    (addr : Option String) (kind key : String) :
    (fetchTokenMetadata env now cache addr kind key).2.2 = 1 := by
  unfold fetchTokenMetadata
  cases env.getMintInfo addr <;> rfl

/-- On a failed mint-info lookup the fetch path returns an error-marked record
and leaves the cache unchanged. -/
theorem fetchTokenMetadata_fail (env : Env) (now : Nat) (cache : Cache)
    (addr : Option String) (kind key : String)
    (h : env.getMintInfo addr = none) :
    fetchTokenMetadata env now cache addr kind key
      = ({ TokenMetadata.empty with
            address := addr,
            type_ := some kind,
            error := some ("Failed to fetch metadata") }, cache, 1) := by
  unfold fetchTokenMetadata
  rw [h]

/-- On a successful mint-info lookup the fetch path stamps the record with the
fetch time, leaves `error` unset, and writes the record through to the cache. -/
theorem fetchTokenMetadata_success (env : Env) (now : Nat) (cache : Cache)
    (addr : Option String) (kind key : String) (mi : MintInfo)
    (h : env.getMintInfo addr = some mi) :
    (fetchTokenMetadata env now cache addr kind key).1.timestamp = some now
  ∧ (fetchTokenMetadata env now cache addr kind key).1.error = none
  ∧ (fetchTokenMetadata env now cache addr kind key).2
      = (Cache.set cache key (fetchTokenMetadata env now cache addr kind key).1, 1) := by
  unfold fetchTokenMetadata
  rw [h]
  refine ⟨?_, ?_, rfl⟩ <;>
    (dsimp only; split <;> split <;> (try split) <;> rfl)

/-- Write-through behaviour of the fetch path: a successful record is stored
under the key before being returned, a degraded record leaves the cache
untouched. -/
theorem fetchTokenMetadata_writeThrough (env : Env) (now : Nat) (cache : Cache)
    (addr : Option String) (kind key : String) :
    ((fetchTokenMetadata env now cache addr kind key).1.error = none →
      Cache.get (fetchTokenMetadata env now cache addr kind key).2.1 key
        = some (fetchTokenMetadata env now cache addr kind key).1)
  ∧ (¬ (fetchTokenMetadata env now cache addr kind key).1.error = none →
      (fetchTokenMetadata env now cache addr kind key).2.1 = cache) := by
  cases hmi : env.getMintInfo addr with
  | none =>
    rw [fetchTokenMetadata_fail env now cache addr kind key hmi]
    exact ⟨fun h => by simp at h, fun _ => rfl⟩
  | some mi =>
    obtain ⟨hts, herr, hpair⟩ := fetchTokenMetadata_success env now cache addr kind key mi hmi
    have h21 : (fetchTokenMetadata env now cache addr kind key).2.1
        = Cache.set cache key (fetchTokenMetadata env now cache addr kind key).1 := by
      rw [hpair]
    constructor
    · intro _
      rw [h21, Cache.get_set]
    · intro hne
      exact absurd herr hne

/-- C5 counterexample: when the mint lookup fails, the degraded error-marked
record is returned but nothing is stored in the cache, refuting that every
result is stored under its key before being returned. -/
theorem getTokenMetadata_degraded_not_cached :
    (getTokenMetadata envNone 0 [] (some ("M")) ("SPL")).1.error
      = some ("Failed to fetch metadata")
  ∧ (getTokenMetadata envNone 0 [] (some ("M")) ("SPL")).2.1 = []
  ∧ Cache.get (getTokenMetadata envNone 0 [] (some ("M")) ("SPL")).2.1 ("M-SPL") = none := by
  refine ⟨?_, ?_, ?_⟩ <;> decide

/-- C5 amended: every successful resolution is stored in the cache under its
`(address, kind)` key before being returned; a degraded error-marked record
is returned without being stored (the cache is left unchanged). -/
theorem getTokenMetadata_writeThrough_amended :
    ∀ (env : Env) (now : Nat) (cache : Cache) (addr : Option String) (kind : String),
      ((getTokenMetadata env now cache addr kind).1.error = none →
        Cache.get (getTokenMetadata env now cache addr kind).2.1
            (jsShow addr ++ "-" ++ kind)
          = some (getTokenMetadata env now cache addr kind).1)
    ∧ (¬ (getTokenMetadata env now cache addr kind).1.error = none →
        (getTokenMetadata env now cache addr kind).2.1 = cache) := by
  intro env now cache addr kind
  unfold getTokenMetadata
  dsimp only
  cases hget : Cache.get cache (jsShow addr ++ "-" ++ kind) with
  | some cached =>
    dsimp only
    by_cases hfresh : cacheFresh now cached = true
    · rw [if_pos hfresh]
      exact ⟨fun _ => hget, fun _ => rfl⟩
    · rw [if_neg hfresh]
      exact fetchTokenMetadata_writeThrough env now cache addr kind _
  | none =>
    dsimp only
    exact fetchTokenMetadata_writeThrough env now cache addr kind _

/-- Witness for C5 amended: a successful resolution is found in the cache
under its key immediately after the call. -/
theorem getTokenMetadata_writeThrough_amended_witness :
    Cache.get (getTokenMetadata envD2 0 [] (some ("M")) ("SPL")).2.1 ("M-SPL")
      = some (getTokenMetadata envD2 0 [] (some ("M")) ("SPL")).1 :=
  (getTokenMetadata_writeThrough_amended envD2 0 [] (some ("M")) ("SPL")).1 (by decide)

/-- C6 counterexample: after a failed resolution nothing is cached, so a
second resolution for the same key issued 1 millisecond later (well within
the TTL) performs a second underlying lookup instead of being served from the
cache — the two resolutions trigger two lookups, not exactly one. -/
theorem getTokenMetadata_failed_resolution_refetches :
    (getTokenMetadata envNone 0 [] (some ("M")) ("SPL")).2.2 = 1
  ∧ (getTokenMetadata envNone 1 (getTokenMetadata envNone 0 [] (some ("M")) ("SPL")).2.1
        (some ("M")) ("SPL")).2.2 = 1 := by
  refine ⟨?_, ?_⟩ <;> decide

/-- C6 amended: when the first resolution for a fresh `(address, kind)` key
succeeds, it performs exactly one underlying lookup, a second resolution
within the 1-hour TTL (measured from the first fetch time) performs no lookup
and returns the cached record verbatim, and a resolution after TTL expiry
performs a new lookup.  Failed resolutions are never cached, so they are not
covered (see the counterexample). -/
theorem getTokenMetadata_ttl_single_lookup_amended :
    ∀ (env : Env) (t1 t2 : Nat) (cache : Cache) (addr : Option String) (kind : String),
      Cache.get cache (jsShow addr ++ "-" ++ kind) = none →
      (getTokenMetadata env t1 cache addr kind).1.error = none →
      ((getTokenMetadata env t1 cache addr kind).2.2 = 1
      ∧ (t2 - t1 < 3600000 →
          getTokenMetadata env t2 (getTokenMetadata env t1 cache addr kind).2.1 addr kind
            = ((getTokenMetadata env t1 cache addr kind).1,
               (getTokenMetadata env t1 cache addr kind).2.1, 0))
      ∧ (3600000 ≤ t2 - t1 →
          (getTokenMetadata env t2 (getTokenMetadata env t1 cache addr kind).2.1 addr kind).2.2
            = 1)) := by
  intro env t1 t2 cache addr kind hmiss herr
  have hred : getTokenMetadata env t1 cache addr kind
      = fetchTokenMetadata env t1 cache addr kind (jsShow addr ++ "-" ++ kind) := by
    unfold getTokenMetadata
    dsimp only
    rw [hmiss]
  rw [hred] at herr ⊢
  cases hmi : env.getMintInfo addr with
  | none =>
    rw [fetchTokenMetadata_fail env t1 cache addr kind _ hmi] at herr
    simp at herr
  | some mi =>
    obtain ⟨hts, _, hpair⟩ :=
      fetchTokenMetadata_success env t1 cache addr kind (jsShow addr ++ "-" ++ kind) mi hmi
    have h21 : (fetchTokenMetadata env t1 cache addr kind (jsShow addr ++ "-" ++ kind)).2.1
        = Cache.set cache (jsShow addr ++ "-" ++ kind)
            (fetchTokenMetadata env t1 cache addr kind (jsShow addr ++ "-" ++ kind)).1 := by
      rw [hpair]
    refine ⟨by rw [hpair], ?_, ?_⟩
    · intro hlt
      have hfresh : cacheFresh t2
          (fetchTokenMetadata env t1 cache addr kind (jsShow addr ++ "-" ++ kind)).1 = true := by
        unfold cacheFresh
        rw [hts]
        simpa using hlt
      unfold getTokenMetadata
      dsimp only
      rw [h21, Cache.get_set]
      dsimp only
      rw [if_pos hfresh]
    · intro hge
      have hfresh : ¬ cacheFresh t2
          (fetchTokenMetadata env t1 cache addr kind (jsShow addr ++ "-" ++ kind)).1 = true := by
        unfold cacheFresh
        rw [hts]
        simpa using hge
      unfold getTokenMetadata
      dsimp only
      rw [h21, Cache.get_set]
      dsimp only
      rw [if_neg hfresh]
      rw [← h21]
      exact fetchTokenMetadata_lookups env t2 _ addr kind _

/-- Witness for C6 amended: with a succeeding environment, the first
resolution performs one lookup, a second at 10 ms is served from the cache
with zero lookups, and a resolution at exactly the TTL boundary refetches. -/
theorem getTokenMetadata_ttl_single_lookup_amended_witness :
    (getTokenMetadata envD2 0 [] (some ("M")) ("SPL")).2.2 = 1
  ∧ getTokenMetadata envD2 10 (getTokenMetadata envD2 0 [] (some ("M")) ("SPL")).2.1
        (some ("M")) ("SPL")
      = ((getTokenMetadata envD2 0 [] (some ("M")) ("SPL")).1,
         (getTokenMetadata envD2 0 [] (some ("M")) ("SPL")).2.1, 0)
  ∧ (getTokenMetadata envD2 3600000 (getTokenMetadata envD2 0 [] (some ("M")) ("SPL")).2.1
        (some ("M")) ("SPL")).2.2 = 1 := by
  have h1 := getTokenMetadata_ttl_single_lookup_amended envD2 0 10 [] (some ("M")) ("SPL")
    (by decide) (by decide)
  have h2 := getTokenMetadata_ttl_single_lookup_amended envD2 0 3600000 [] (some ("M")) ("SPL")
    (by decide) (by decide)
  exact ⟨h1.1, h1.2.1 (by decide), h2.2.2 (by decide)⟩

/-- Tracking a program interaction does not change `actions`. -/
theorem trackProgram_actions (res : ExtractedData) (pid : String) :
    (trackProgram res pid).actions = res.actions := by
  unfold trackProgram
  split <;> rfl

/-- Tracking a program interaction does not change `otherInstructions`. -/
theorem trackProgram_otherInstructions (res : ExtractedData) (pid : String) :
    (trackProgram res pid).otherInstructions = res.otherInstructions := by
  unfold trackProgram
  split <;> rfl

/-- Tracking a program interaction appends the id exactly when unseen. -/
theorem trackProgram_interactions (res : ExtractedData) (pid : String) :
    (trackProgram res pid).programInteractions
      = (if pid ∈ res.programInteractions then res.programInteractions
         else res.programInteractions ++ [pid]) := by
  unfold trackProgram
  split <;> simp [*]

/-- The transfer special-casing touches only `transfers` and `types`. -/
theorem processSpecial_preserves (env : Env) (now : Nat) (res : ExtractedData)
    (cache : Cache) (ix : ParsedIx) :
    (processSpecial env now res cache ix).1.actions = res.actions
  ∧ (processSpecial env now res cache ix).1.otherInstructions = res.otherInstructions
  ∧ (processSpecial env now res cache ix).1.programInteractions = res.programInteractions := by
  unfold processSpecial
  split
  · split <;> exact ⟨rfl, rfl, rfl⟩
  · split
    · dsimp only
      split <;> split <;> exact ⟨rfl, rfl, rfl⟩
    · exact ⟨rfl, rfl, rfl⟩

/-- One loop iteration appends the instruction's detail to exactly one of
`actions` / `otherInstructions` (to `actions` iff structurally parsed) and
performs the first-seen update of `programInteractions`. -/
theorem processInstruction_fields (env : Env) (now : Nat) (tx : Transaction)
    (s : ExtractedData × Cache) (idx : Nat) (i : Instruction) :
    (processInstruction env now tx s idx i).1.actions.length
      = s.1.actions.length + (if isParsedIx i then 1 else 0)
  ∧ (processInstruction env now tx s idx i).1.otherInstructions.length
      = s.1.otherInstructions.length + (if isParsedIx i then 0 else 1)
  ∧ (processInstruction env now tx s idx i).1.programInteractions
      = (if instrProgramId i ∈ s.1.programInteractions then s.1.programInteractions
         else s.1.programInteractions ++ [instrProgramId i]) := by
  cases i with
  | parsed ix =>
    unfold processInstruction
    dsimp only
    obtain ⟨ha, ho, hp⟩ := processSpecial_preserves env now
      (trackProgram s.1 (instrProgramId (Instruction.parsed ix))) s.2 ix
    refine ⟨?_, ?_, ?_⟩
    · simp [isParsedIx, ha, trackProgram_actions]
    · simp [isParsedIx, ho, trackProgram_otherInstructions]
    · simp [hp, trackProgram_interactions]
  | unparsed pid accs dat =>
    unfold processInstruction
    dsimp only
    refine ⟨?_, ?_, ?_⟩
    · simp [isParsedIx, trackProgram_actions]
    · simp [isParsedIx, trackProgram_otherInstructions]
    · simp [trackProgram_interactions]

/-- Loop invariant: the loop adds one entry to `actions` per structurally
parsed instruction and one to `otherInstructions` per undecoded one. -/
theorem processList_counts (env : Env) (now : Nat) (tx : Transaction) :
    ∀ (l : List Instruction) (idx : Nat) (s : ExtractedData × Cache),
      (processList env now tx idx l s).1.actions.length
        = s.1.actions.length + l.countP isParsedIx
    ∧ (processList env now tx idx l s).1.otherInstructions.length
        = s.1.otherInstructions.length + l.countP (fun i => ! isParsedIx i) := by
  intro l
  induction l with
  | nil =>
    intro idx s
    simp [processList]
  | cons i rest ih =>
    intro idx s
    obtain ⟨ha, ho, _⟩ := processInstruction_fields env now tx s idx i
    obtain ⟨iha, iho⟩ := ih (idx + 1) (processInstruction env now tx s idx i)
    constructor
    · rw [show processList env now tx idx (i :: rest) s
          = processList env now tx (idx + 1) rest (processInstruction env now tx s idx i)
          from rfl, iha, ha, List.countP_cons]
      cases hpi : isParsedIx i <;> simp [hpi] <;> try omega
    · rw [show processList env now tx idx (i :: rest) s
          = processList env now tx (idx + 1) rest (processInstruction env now tx s idx i)
          from rfl, iho, ho, List.countP_cons]
      cases hpi : isParsedIx i <;> simp [hpi] <;> try omega

/-- C1: every top-level instruction contributes to exactly one of `actions`
(structurally parsed) and `otherInstructions` (undecoded), so the two lengths
sum to the number of top-level instructions. -/
theorem classify_actions_other_partition :
    ∀ (env : Env) (now : Nat) (cache : Cache) (tx : Transaction),
      (classifyAndExtractInstructions env now cache tx).1.actions.length
        = tx.instructions.countP isParsedIx
    ∧ (classifyAndExtractInstructions env now cache tx).1.otherInstructions.length
        = tx.instructions.countP (fun i => ! isParsedIx i)
    ∧ (classifyAndExtractInstructions env now cache tx).1.actions.length
        + (classifyAndExtractInstructions env now cache tx).1.otherInstructions.length
        = tx.instructions.length := by
  intro env now cache tx
  obtain ⟨ha, ho⟩ := processList_counts env now tx tx.instructions 0 (ExtractedData.empty, cache)
  have ha2 : (classifyAndExtractInstructions env now cache tx).1.actions.length
      = tx.instructions.countP isParsedIx := by
    rw [classifyAndExtractInstructions, ha]
    simp [ExtractedData.empty]
  have ho2 : (classifyAndExtractInstructions env now cache tx).1.otherInstructions.length
      = tx.instructions.countP (fun i => ! isParsedIx i) := by
    rw [classifyAndExtractInstructions, ho]
    simp [ExtractedData.empty]
  refine ⟨ha2, ho2, ?_⟩
  rw [ha2, ho2, List.length_eq_countP_add_countP isParsedIx tx.instructions]
  simp

/-- The accumulator form of first-occurrence tracking appends exactly the
first occurrences not already seen. -/
theorem firstAcc_eq (l : List String) :
    ∀ acc : List String,
      firstAcc acc l = acc ++ (firstOccur l).filter (fun x => ¬ x ∈ acc) := by
  induction l with
  | nil =>
    intro acc
    simp [firstAcc, firstOccur]
  | cons a l ih =>
    intro acc
    by_cases h : a ∈ acc
    · rw [show firstAcc acc (a :: l) = firstAcc acc l from by simp [firstAcc, h], ih acc]
      rw [show firstOccur (a :: l) = a :: (firstOccur l).filter (fun x => ¬ x = a) from rfl]
      rw [List.filter_cons_of_neg (by simp [h]), List.filter_filter]
      congr 1
      apply List.filter_congr
      intro x _
      by_cases hxa : x = a
      · subst hxa
        simp [h]
      · simp [hxa]
    · rw [show firstAcc acc (a :: l) = firstAcc (acc ++ [a]) l from by simp [firstAcc, h],
          ih (acc ++ [a])]
      rw [show firstOccur (a :: l) = a :: (firstOccur l).filter (fun x => ¬ x = a) from rfl]
      rw [List.filter_cons_of_pos (by simp [h]), List.filter_filter]
      rw [List.append_assoc]
      congr 1
      rw [List.singleton_append]
      congr 1
      apply List.filter_congr
      intro x _
      by_cases hxa : x = a
      · subst hxa
        simp
      · simp [hxa, And.comm]

/-- First-occurrence deduplication never repeats an id. -/
theorem firstOccur_nodup : ∀ l : List String, (firstOccur l).Nodup := by
  intro l
  induction l with
  | nil => simp [firstOccur]
  | cons a l ih =>
    rw [show firstOccur (a :: l) = a :: (firstOccur l).filter (fun x => ¬ x = a) from rfl]
    rw [List.nodup_cons]
    constructor
    · intro hmem
      rcases List.mem_filter.mp hmem with ⟨_, hdec⟩
      simp at hdec
    · exact List.Nodup.filter _ ih

/-- First-occurrence deduplication keeps exactly the ids of the input. -/
theorem mem_firstOccur : ∀ (l : List String) (x : String), x ∈ firstOccur l ↔ x ∈ l := by
  intro l
  induction l with
  | nil => simp [firstOccur]
  | cons a l ih =>
    intro x
    rw [show firstOccur (a :: l) = a :: (firstOccur l).filter (fun x => ¬ x = a) from rfl]
    by_cases hxa : x = a
    · subst hxa
      simp
    · simp [List.mem_filter, hxa, ih]

/-- First-occurrence deduplication lists ids in strictly increasing order of
their first index in the input. -/
theorem firstOccur_pairwise_indexOf :
    ∀ l : List String,
      (firstOccur l).Pairwise (fun a b => l.indexOf a < l.indexOf b) := by
  intro l
  induction l with
  | nil => simp [firstOccur]
  | cons a l ih =>
    rw [show firstOccur (a :: l) = a :: (firstOccur l).filter (fun x => ¬ x = a) from rfl]
    rw [List.pairwise_cons]
    constructor
    · intro b hb
      rcases List.mem_filter.mp hb with ⟨_, hdec⟩
      have hba : ¬ b = a := by simpa using hdec
      rw [List.indexOf_cons_self, List.indexOf_cons_ne l (Ne.symm hba)]
      exact Nat.succ_pos _
    · have hfilter := List.Pairwise.filter (fun x => decide (¬ x = a)) ih
      refine List.Pairwise.imp_of_mem ?_ hfilter
      intro x y hx hy hxy
      have hxa : ¬ x = a := by simpa using (List.mem_filter.mp hx).2
      have hya : ¬ y = a := by simpa using (List.mem_filter.mp hy).2
      rw [List.indexOf_cons_ne l (Ne.symm hxa), List.indexOf_cons_ne l (Ne.symm hya)]
      exact Nat.succ_lt_succ hxy

/-- Loop invariant: the loop threads `programInteractions` through the
first-seen accumulator over the instruction program ids. -/
theorem processList_interactions (env : Env) (now : Nat) (tx : Transaction) :
    ∀ (l : List Instruction) (idx : Nat) (s : ExtractedData × Cache),
      (processList env now tx idx l s).1.programInteractions
        = firstAcc s.1.programInteractions (l.map instrProgramId) := by
  intro l
  induction l with
  | nil =>
    intro idx s
    simp [processList, firstAcc]
  | cons i rest ih =>
    intro idx s
    obtain ⟨_, _, hp⟩ := processInstruction_fields env now tx s idx i
    rw [show processList env now tx idx (i :: rest) s
        = processList env now tx (idx + 1) rest (processInstruction env now tx s idx i)
        from rfl, ih (idx + 1) (processInstruction env now tx s idx i), hp]
    rw [show (i :: rest).map instrProgramId = instrProgramId i :: rest.map instrProgramId
        from rfl]
    rw [show firstAcc s.1.programInteractions (instrProgramId i :: rest.map instrProgramId)
        = firstAcc (if instrProgramId i ∈ s.1.programInteractions then s.1.programInteractions
                    else s.1.programInteractions ++ [instrProgramId i])
            (rest.map instrProgramId) from rfl]

/-- C2: `programInteractions` is the first-occurrence deduplication of the
program ids of the top-level instructions — no duplicates, every invoked id
present, listed in strictly increasing order of first occurrence — and on the
concrete program sequence A, B, A, C it is A, B, C. -/
theorem classify_programInteractions_firstOccur :
    (∀ (env : Env) (now : Nat) (cache : Cache) (tx : Transaction),
      (classifyAndExtractInstructions env now cache tx).1.programInteractions
        = firstOccur (tx.instructions.map instrProgramId)
      ∧ ((classifyAndExtractInstructions env now cache tx).1.programInteractions).Nodup
      ∧ (∀ x, x ∈ (classifyAndExtractInstructions env now cache tx).1.programInteractions
            ↔ x ∈ tx.instructions.map instrProgramId)
      ∧ ((classifyAndExtractInstructions env now cache tx).1.programInteractions).Pairwise
          (fun a b => (tx.instructions.map instrProgramId).indexOf a
                    < (tx.instructions.map instrProgramId).indexOf b))
  ∧ (classifyAndExtractInstructions envNone 0 [] txABAC).1.programInteractions
      = ["A", "B", "C"] := by
  constructor
  · intro env now cache tx
    have hmain : (classifyAndExtractInstructions env now cache tx).1.programInteractions
        = firstOccur (tx.instructions.map instrProgramId) := by
      rw [classifyAndExtractInstructions,
          processList_interactions env now tx tx.instructions 0 (ExtractedData.empty, cache),
          firstAcc_eq]
      rw [show (ExtractedData.empty, cache).1.programInteractions = ([] : List String)
          from rfl]
      simp
    refine ⟨hmain, ?_, ?_, ?_⟩
    · rw [hmain]
      exact firstOccur_nodup _
    · intro x
      rw [hmain]
      exact mem_firstOccur _ x
    · rw [hmain]
      exact firstOccur_pairwise_indexOf _
  · decide

/-- C4: a token instruction whose `tokenAmount` has `decimals = 0` and display
amount 1 yields an NFT transfer with `tokenId` the mint address in addition to
the SPL transfer the fungible path independently yields. -/
theorem classify_splToken_yields_both_transfers :
    ∀ (env : Env) (now : Nat) (cache : Cache) (m : String) (ix : ParsedIx)
      (innerIs : Option (List InnerInstructionSet)),
      ix.program = "spl-token" →
      ix.type_ = "transferChecked" ∨ ix.type_ = "transfer" →
      ix.info.tokenAmount = some { decimals := 0, uiAmount := 1 } →
      ix.info.mint = some m →
      ∃ tSpl tNft,
        (classifyAndExtractInstructions env now cache
            { instructions := [Instruction.parsed ix], innerInstructions := innerIs }).1.transfers
          = [tSpl, tNft]
        ∧ tSpl.tokenType = "SPL" ∧ tSpl.value = some 1
        ∧ tNft.tokenType = "NFT" ∧ tNft.tokenId = some m := by
  intro env now cache m ix innerIs hp hty hta hm
  rcases hty with h | h <;>
    (simp only [classifyAndExtractInstructions, processList, processInstruction,
      processSpecial, parseTokenTransfer, parseNFTTransfer, trackProgram,
      ExtractedData.empty, instrProgramId, hp, hta, hm, h]
     simp
     exact ⟨_, _, ⟨rfl, rfl⟩, rfl, rfl, rfl, rfl⟩)

/-- Witness for C4: the concrete NFT-shaped instruction yields both an SPL
and an NFT transfer. -/
theorem classify_splToken_yields_both_transfers_witness :
    ∃ tSpl tNft,
      (classifyAndExtractInstructions envNone 0 []
          { instructions := [Instruction.parsed ixNFT], innerInstructions := none }).1.transfers
        = [tSpl, tNft]
      ∧ tSpl.tokenType = "SPL" ∧ tSpl.value = some 1
      ∧ tNft.tokenType = "NFT" ∧ tNft.tokenId = some ("M") :=
  classify_splToken_yields_both_transfers envNone 0 [] ("M") ixNFT none rfl
    (Or.inl rfl) rfl rfl
